import Mathlib

/-!
# Verification of the user_registration_center presence service

Shallow embedding of the repository's core logic in Lean 4:

* `ConsistentHash.getUserVnode` (src/common/consistent-hash.js): MD5 of the
  UTF-8 bytes of the userId, first 8 hex characters parsed as a 32-bit
  number, reduced mod the vnode count.
* the coordinator HTTP handlers `/nodes/register`, `/nodes/unregister`,
  `/route` (src/coordinator/server.js);
* the Presence Node (WebSocket node) connection/disconnection handlers, the
  Kafka `user_status_events` consumer, and the startup sequence.

Machine integers are modelled as `Nat` with explicit `% 2^32` where the
JavaScript / MD5 arithmetic wraps.
-/

namespace RegistrationCenter

/-! ## MD5, as computed by node crypto.createHash("md5")

Bytes are `Nat` values `< 256`; 32-bit words are `Nat` values `< 2^32`.
-/

/-- The modulus of MD5 word arithmetic, 2 to the 32. -/
def M32 : Nat := 4294967296

/-- Left rotation of a 32-bit word. -/
def rotl32 (x c : Nat) : Nat := ((x <<< c) ||| (x >>> (32 - c))) % M32

/-- The 64 MD5 round constants `K[i] = floor(|sin(i+1)| * 2^32)` (RFC 1321). -/
def md5K : List Nat :=
  [0xd76aa478, 0xe8c7b756, 0x242070db, 0xc1bdceee, 0xf57c0faf, 0x4787c62a, 0xa8304613, 0xfd469501,
   0x698098d8, 0x8b44f7af, 0xffff5bb1, 0x895cd7be, 0x6b901122, 0xfd987193, 0xa679438e, 0x49b40821,
   0xf61e2562, 0xc040b340, 0x265e5a51, 0xe9b6c7aa, 0xd62f105d, 0x02441453, 0xd8a1e681, 0xe7d3fbc8,
   0x21e1cde6, 0xc33707d6, 0xf4d50d87, 0x455a14ed, 0xa9e3e905, 0xfcefa3f8, 0x676f02d9, 0x8d2a4c8a,
   0xfffa3942, 0x8771f681, 0x6d9d6122, 0xfde5380c, 0xa4beea44, 0x4bdecfa9, 0xf6bb4b60, 0xbebfbc70,
   0x289b7ec6, 0xeaa127fa, 0xd4ef3085, 0x04881d05, 0xd9d4d039, 0xe6db99e5, 0x1fa27cf8, 0xc4ac5665,
   0xf4292244, 0x432aff97, 0xab9423a7, 0xfc93a039, 0x655b59c3, 0x8f0ccc92, 0xffeff47d, 0x85845dd1,
   0x6fa87e4f, 0xfe2ce6e0, 0xa3014314, 0x4e0811a1, 0xf7537e82, 0xbd3af235, 0x2ad7d2bb, 0xeb86d391]

/-- The 64 MD5 per-round left-rotation amounts (RFC 1321). -/
def md5S : List Nat :=
  [7, 12, 17, 22, 7, 12, 17, 22, 7, 12, 17, 22, 7, 12, 17, 22,
   5, 9, 14, 20, 5, 9, 14, 20, 5, 9, 14, 20, 5, 9, 14, 20,
   4, 11, 16, 23, 4, 11, 16, 23, 4, 11, 16, 23, 4, 11, 16, 23,
   6, 10, 15, 21, 6, 10, 15, 21, 6, 10, 15, 21, 6, 10, 15, 21]

/-- MD5 working state: four 32-bit words. -/
structure MD5State where
  a : Nat
  b : Nat
  c : Nat
  d : Nat
  deriving Repr, DecidableEq

/-- The MD5 round function for round `i` (F, G, H, I over the four
16-round groups); 32-bit complement is XOR with `0xFFFFFFFF`. -/
def md5F (i b c d : Nat) : Nat :=
  if i < 16 then (b &&& c) ||| ((b ^^^ 0xFFFFFFFF) &&& d)
  else if i < 32 then (d &&& b) ||| ((d ^^^ 0xFFFFFFFF) &&& c)
  else if i < 48 then b ^^^ c ^^^ d
  else c ^^^ (b ||| (d ^^^ 0xFFFFFFFF))

/-- The message-word index used in round `i`. -/
def md5G (i : Nat) : Nat :=
  if i < 16 then i
  else if i < 32 then (5 * i + 1) % 16
  else if i < 48 then (3 * i + 5) % 16
  else (7 * i) % 16

/-- One MD5 round applied to the working state; `M` holds the sixteen
32-bit words of the current block. -/
def md5Step (M : List Nat) (st : MD5State) (i : Nat) : MD5State :=
  let f := (md5F i st.b st.c st.d + st.a + md5K.getD i 0 + M.getD (md5G i) 0) % M32
  { a := st.d, d := st.c, c := st.b,
    b := (st.b + rotl32 f (md5S.getD i 0)) % M32 }

/-- Process one 64-byte block: decode sixteen little-endian words, run 64
rounds, add the result into the chaining state (mod 2^32). -/
def md5Block (st : MD5State) (block : List Nat) : MD5State :=
  let M := (List.range 16).map (fun j =>
    block.getD (4 * j) 0 + 256 * block.getD (4 * j + 1) 0 +
      65536 * block.getD (4 * j + 2) 0 + 16777216 * block.getD (4 * j + 3) 0)
  let r := (List.range 64).foldl (md5Step M) st
  { a := (st.a + r.a) % M32, b := (st.b + r.b) % M32,
    c := (st.c + r.c) % M32, d := (st.d + r.d) % M32 }

/-- MD5 padding: append `0x80`, zero bytes up to 56 mod 64, then the bit
length as a 64-bit little-endian integer. -/
def md5Pad (msg : List Nat) : List Nat :=
  let len := msg.length
  let k := (119 - len % 64) % 64
  let bitLen := (8 * len) % (2 ^ 64)
  msg ++ [0x80] ++ List.replicate k 0 ++ (List.range 8).map (fun i => (bitLen >>> (8 * i)) % 256)

/-- The final MD5 chaining state of a byte message. -/
def md5Words (msg : List Nat) : MD5State :=
  let padded := md5Pad msg
  (List.range (padded.length / 64)).foldl
    (fun st i => md5Block st ((padded.drop (64 * i)).take 64))
    ⟨0x67452301, 0xefcdab89, 0x98badcfe, 0x10325476⟩

/-- The four little-endian bytes of a 32-bit word. -/
def wordLEBytes (w : Nat) : List Nat :=
  [w % 256, (w >>> 8) % 256, (w >>> 16) % 256, (w >>> 24) % 256]

/-- The 16-byte MD5 digest of a byte message. -/
def md5Digest (msg : List Nat) : List Nat :=
  wordLEBytes (md5Words msg).a ++ wordLEBytes (md5Words msg).b ++
    wordLEBytes (md5Words msg).c ++ wordLEBytes (md5Words msg).d

/-! ## UTF-8 encoding and hexadecimal strings -/

/-- Standard UTF-8 encoding of a Unicode code point as a byte list. -/
def utf8EncodeCodePoint (c : Nat) : List Nat :=
  if c < 0x80 then [c]
  else if c < 0x800 then
    [0xC0 ||| (c >>> 6), 0x80 ||| (c &&& 0x3F)]
  else if c < 0x10000 then
    [0xE0 ||| (c >>> 12), 0x80 ||| ((c >>> 6) &&& 0x3F), 0x80 ||| (c &&& 0x3F)]
  else
    [0xF0 ||| (c >>> 18), 0x80 ||| ((c >>> 12) &&& 0x3F),
     0x80 ||| ((c >>> 6) &&& 0x3F), 0x80 ||| (c &&& 0x3F)]

/-- The UTF-8 bytes of a string (what `hash.update(userId)` digests). -/
def utf8Encode (s : String) : List Nat :=
  s.data.flatMap (fun ch => utf8EncodeCodePoint ch.toNat)

/-- Lower-case hexadecimal digit for `n < 16`. -/
def hexDigitChar (n : Nat) : Char :=
  if n < 10 then Char.ofNat (48 + n) else Char.ofNat (87 + n)

/-- Two hex characters of a byte (as `digest('hex')` renders each byte). -/
def byteToHex (b : Nat) : List Char :=
  [hexDigitChar (b / 16), hexDigitChar (b % 16)]

/-- The hex string of a byte list, as a character list. -/
def hexChars (bs : List Nat) : List Char :=
  bs.flatMap byteToHex

/-- Numeric value of a lower-case hex character. -/
def hexVal (c : Char) : Nat :=
  if c.toNat ≤ 57 then c.toNat - 48 else c.toNat - 87

/-- JavaScript `parseInt(str, 16)` on a list of hex characters. -/
def parseHex (cs : List Char) : Nat :=
  cs.foldl (fun acc c => 16 * acc + hexVal c) 0

/-! ## ConsistentHash (src/common/consistent-hash.js) -/

/-- Transcription of `ConsistentHash.getUserVnode`: md5-hex the userId,
parse the first 8 hex characters (32 bits) as a number, reduce mod
`vnodeCount`. -/
def getUserVnode (vnodeCount : Nat) (userId : String) : Nat :=
  parseHex ((hexChars (md5Digest (utf8Encode userId))).take 8) % vnodeCount

/-- The reference formula stated by the spec (section 4.1 and section 8):
the first 32 bits of the MD5 digest of the UTF-8 bytes of the userId — the
first four digest bytes read big-endian — reduced mod `V`. Written from the
words of the spec, to be compared with `getUserVnode`. -/
def userVnodeRef (V : Nat) (userId : String) : Nat :=
  (((md5Digest (utf8Encode userId)).take 4).foldl (fun acc b => 256 * acc + b) 0) % V

/-! ## JavaScript-flavoured helpers shared by the handlers -/

/-- Truthiness of a string-valued lookup in the JS source: `undefined`
(here `none`) and the empty string are falsy. -/
def strTruthy : Option String → Bool
  | none => false
  | some s => !(s == "")

/-- A JSON scalar as the handlers serialize it; JS numbers and JS strings
stay distinct in the response body. -/
inductive JVal where
  | num (n : Nat)
  | str (s : String)
  deriving Repr, DecidableEq

/-- Whether a JSON scalar is a number. -/
def JVal.isNum : JVal → Bool
  | .num _ => true
  | .str _ => false

/-- Occupancy test of the register loop: `!currentVnodeMap[i]` on the
`hgetall` snapshot, whose keys are decimal strings (the numeric index is
coerced to its decimal string by JS property lookup). -/
def vnodeOccupied (owners : List (String × String)) (i : Nat) : Bool :=
  strTruthy (owners.lookup (toString i))

/-! ## Coordinator HTTP handlers (src/coordinator/server.js) -/

/-- Result of `POST /nodes/register`. -/
inductive RegisterResult where
  | badRequest
  | conflict
  | created (instanceId : String) (assignedVnodes : List JVal)
  deriving Repr, DecidableEq

/-- The register scan loop: walk the candidate ids in order, push every id
whose slot is free, and break as soon as `desired` many have been
collected (the length test runs after each push, as in the source). -/
def scanLoop (occupied : Nat → Bool) (desired : Nat) : List Nat → List Nat → List Nat
  | acc, [] => acc
  | acc, i :: rest =>
    if !occupied i then
      let acc2 := acc ++ [i]
      if desired ≤ acc2.length then acc2 else scanLoop occupied desired acc2 rest
    else scanLoop occupied desired acc rest

/-- Handler of `POST /nodes/register`: weight defaults to 1, desired count
is `max(1, floor(V * weight / 100))`, the scan collects the first desired
free ids in `0..V-1`, 409 when none, otherwise 201 with the assigned ids
(JS numbers). The second component is the vnode-to-instance mapping the
handler writes to the directory. -/
def registerHandler (V : Nat) (instanceId : String) (weight : Option Nat)
    (owners : List (String × String)) : RegisterResult × List (Nat × String) :=
  if instanceId = "" then (.badRequest, [])
  else
    let w := weight.getD 1
    let desired := max 1 (V * w / 100)
    let avail := scanLoop (vnodeOccupied owners) desired [] (List.range V)
    if avail.length = 0 then (.conflict, [])
    else (.created instanceId (avail.map JVal.num), avail.map (fun v => (v, instanceId)))

/-- Result of `POST /nodes/unregister`. -/
inductive UnregisterResult where
  | badRequest
  | notFound
  | ok (instanceId : String) (removedVnodes : List JVal)
  deriving Repr, DecidableEq

/-- Handler of `POST /nodes/unregister`: snapshot the owners hash, collect
the keys (decimal strings, via `Object.entries`) whose value is the target
instance, 404 when there are none, otherwise `hdel` those fields and
respond 200 listing them. The second component is the directory owners
hash after the `hdel` pipeline. -/
def unregisterHandler (owners : List (String × String)) (instanceId : String) :
    UnregisterResult × List (String × String) :=
  if instanceId = "" then (.badRequest, owners)
  else
    let toRemove := (owners.filter (fun p => p.2 = instanceId)).map Prod.fst
    if toRemove.length = 0 then (.notFound, owners)
    else (.ok instanceId (toRemove.map JVal.str),
          owners.filter (fun p => !(toRemove.contains p.1)))

/-- Coordinator-local mutable state read by `GET /route`: the Redis user
cache (keys `user:<userId>`) and the local ring replica `vnodeMap`. -/
structure RouteState where
  userCache : String → Option String
  ring : Nat → Option String

/-- Result of `GET /route`. -/
inductive RouteResult where
  | badRequest
  | cacheHit (userId inst : String)
  | notFound
  | hashHit (userId : String) (vnode : Nat) (inst : String)
  deriving Repr, DecidableEq

/-- Handler of `GET /route`: serve from the user cache when present
(source "cache"); otherwise hash the user to a vnode, consult the local
ring, fall back to the directory snapshot on a miss (caching a hit into
the local ring), 404 when still absent, and otherwise cache the
user-to-instance mapping and answer with source "hash". -/
def routeHandler (V : Nat) (dirOwners : Nat → Option String) (st : RouteState)
    (userId : String) : RouteResult × RouteState :=
  if userId = "" then (.badRequest, st)
  else if strTruthy (st.userCache userId) then
    (.cacheHit userId ((st.userCache userId).getD ""), st)
  else if strTruthy (st.ring (getUserVnode V userId)) then
    (.hashHit userId (getUserVnode V userId) ((st.ring (getUserVnode V userId)).getD ""),
     { st with userCache := fun u =>
         if u = userId then some ((st.ring (getUserVnode V userId)).getD "")
         else st.userCache u })
  else if strTruthy (dirOwners (getUserVnode V userId)) then
    (.hashHit userId (getUserVnode V userId) ((dirOwners (getUserVnode V userId)).getD ""),
     { userCache := fun u =>
         if u = userId then some ((dirOwners (getUserVnode V userId)).getD "")
         else st.userCache u,
       ring := fun v =>
         if v = getUserVnode V userId then some ((dirOwners (getUserVnode V userId)).getD "")
         else st.ring v })
  else (.notFound, st)

/-! ## Presence Node (WebSocket node, src/coordinator/server.js second half) -/

/-- Local state of a Presence Node: `clients` maps a userId to its live
connection handle (connections are modelled by numeric ids), and
`onlineUsers` maps a vnode id to its set of online users; `none` means the
vnode key does not exist in the `onlineUsers` object. -/
structure NodeState where
  clients : String → Option Nat
  onlineUsers : Nat → Option (Finset String)

/-- Externally visible actions of the connection handler. -/
inductive WsEffect where
  | close (conn : Nat) (code : Nat) (reason : String)
  | publish (userId action nodeId : String)
  | send (conn : Nat) (frameType : String)
  deriving Repr, DecidableEq

/-- Whether an effect closes the given connection. -/
def WsEffect.closes (conn : Nat) : WsEffect → Bool
  | .close c _ _ => c = conn
  | _ => false

/-- Transcription of `isUserOwnedByThisNode`: the vnode of the user is in
the configured `assignedVnodes` list. -/
def isUserOwnedByThisNode (V : Nat) (assigned : List Nat) (userId : String) : Bool :=
  assigned.contains (getUserVnode V userId)

/-- The WebSocket connection handler. `token` is the result of
`Auth.extractToken` on the request and `extractUserId` the behaviour of
`Auth.extractUserId` (token verification). The three rejection branches
close 1008 and change nothing; the accepted branch stores the connection
(overwriting any previous entry for the user without closing it), adds the
user to the online set of its vnode, publishes the online event and sends
the welcome frame. -/
def handleConnection (V : Nat) (assigned : List Nat) (selfNode : String)
    (extractUserId : String → Option String) (st : NodeState) (ws : Nat)
    (token : Option String) : NodeState × List WsEffect :=
  match token with
  | none => (st, [.close ws 1008 "No token provided"])
  | some t =>
    match extractUserId t with
    | none => (st, [.close ws 1008 "Invalid token"])
    | some userId =>
      if !isUserOwnedByThisNode V assigned userId then
        (st, [.close ws 1008 "User does not belong to this node"])
      else
        ({ clients := fun u => if u = userId then some ws else st.clients u,
           onlineUsers := fun v =>
             if v = getUserVnode V userId then (st.onlineUsers v).map (insert userId)
             else st.onlineUsers v },
         [.publish userId "online" selfNode, .send ws "welcome"])

/-- The per-connection close handler: remove the user from the online set
of its vnode (the `vnodeId` captured at connect time, which is
`getUserVnode userId`) and drop the clients entry; the offline publish is
an effect, not a state change. -/
def handleClose (V : Nat) (st : NodeState) (userId : String) : NodeState :=
  { clients := fun u => if u = userId then none else st.clients u,
    onlineUsers := fun v =>
      if v = getUserVnode V userId then (st.onlineUsers v).map (fun s => s.erase userId)
      else st.onlineUsers v }

/-- A message of the `user_status_events` topic. -/
structure StatusEvent where
  userId : String
  action : String
  timestamp : Nat
  nodeId : String

/-- The Kafka consumer body applied to the `onlineUsers` state: skip events
published by this node, skip users this node does not own, otherwise add
the user on "online" and remove it on "offline" in the set of its vnode. -/
def applyStatusEvent (V : Nat) (assigned : List Nat) (selfNode : String)
    (ou : Nat → Option (Finset String)) (e : StatusEvent) :
    Nat → Option (Finset String) :=
  if e.nodeId = selfNode then ou
  else if !isUserOwnedByThisNode V assigned e.userId then ou
  else if e.action = "online" then
    fun w => if w = getUserVnode V e.userId then (ou w).map (insert e.userId) else ou w
  else if e.action = "offline" then
    fun w => if w = getUserVnode V e.userId then (ou w).map (fun s => s.erase e.userId) else ou w
  else ou

/-- Sequential application of a list of bus events (at-least-once delivery
replays are modelled by applying the list again). -/
def applyStatusEvents (V : Nat) (assigned : List Nat) (selfNode : String)
    (ou : Nat → Option (Finset String)) (es : List StatusEvent) :
    Nat → Option (Finset String) :=
  es.foldl (applyStatusEvent V assigned selfNode) ou

/-- The node state at process start: no clients, and one empty online set
per assigned vnode (no key for any other vnode). -/
def initialNodeState (assigned : List Nat) : NodeState :=
  { clients := fun _ => none,
    onlineUsers := fun v => if assigned.contains v then some (∅ : Finset String) else none }

/-- One state transition of a Presence Node: an incoming connection, a
connection close, or one consumed bus event. -/
inductive NodeStep (V : Nat) (assigned : List Nat) (selfNode : String) :
    NodeState → NodeState → Prop where
  | connect (st : NodeState) (ws : Nat) (token : Option String)
      (extractUserId : String → Option String) :
      NodeStep V assigned selfNode st
        (handleConnection V assigned selfNode extractUserId st ws token).1
  | disconnect (st : NodeState) (userId : String) :
      NodeStep V assigned selfNode st (handleClose V st userId)
  | busEvent (st : NodeState) (e : StatusEvent) :
      NodeStep V assigned selfNode st
        { st with onlineUsers := applyStatusEvent V assigned selfNode st.onlineUsers e }

/-- The states a Presence Node can reach from its initial state. -/
inductive Reachable (V : Nat) (assigned : List Nat) (selfNode : String) : NodeState → Prop where
  | init : Reachable V assigned selfNode (initialNodeState assigned)
  | step {st st2 : NodeState} : Reachable V assigned selfNode st →
      NodeStep V assigned selfNode st st2 → Reachable V assigned selfNode st2

/-- The onlineUsers bookkeeping invariant: the keys are exactly the
assigned vnodes, and every member of the set of vnode `v` hashes to `v`. -/
def NodeInvariant (V : Nat) (assigned : List Nat) (st : NodeState) : Prop :=
  (∀ v, (st.onlineUsers v).isSome = assigned.contains v) ∧
  (∀ v s, st.onlineUsers v = some s → ∀ u ∈ s, getUserVnode V u = v)

/-- The ordered effectful steps of the WebSocket-node `start` function, as
written in the source: Kafka connects, the consumer subscription, then
`server.listen` (the node starts accepting connections), then the
heartbeat timer, then the one awaited initial heartbeat, then the shutdown
hooks. -/
inductive StartStep where
  | logConfig
  | producerConnect
  | consumerConnect
  | subscribeEvents
  | serverListen
  | scheduleHeartbeatTimer
  | initialHeartbeat
  | registerShutdownHooks
  deriving Repr, DecidableEq

/-- The startup sequence of the WebSocket node `start` function. -/
def wsNodeStartSequence : List StartStep :=
  [.logConfig, .producerConnect, .consumerConnect, .subscribeEvents,
   .serverListen, .scheduleHeartbeatTimer, .initialHeartbeat, .registerShutdownHooks]

/-! ## Spec-side abbreviations used to state the coordinator claims -/

/-- The vnode ids of `0..V-1`, in ascending order, that are absent from the
owners snapshot. -/
def freeVnodes (V : Nat) (owners : List (String × String)) : List Nat :=
  (List.range V).filter (fun i => !vnodeOccupied owners i)

/-- The desired assignment count of the register algorithm,
`max(1, floor(V * weight / 100))`. -/
def desiredCount (V w : Nat) : Nat := max 1 (V * w / 100)

/-! ## Auxiliary notions for the bus-consumer idempotence proof -/

/-- Boolean membership of a user in the online set of a vnode. -/
def memOU (ou : Nat → Option (Finset String)) (v : Nat) (u : String) : Bool :=
  match ou v with
  | some s => decide (u ∈ s)
  | none => false

/-- The verdict a single bus event casts on the membership of user `u` at
vnode `v`: `some true` when the event survives the consumer filters and
puts `u` online at `v`, `some false` when it puts `u` offline at `v`, and
`none` when the event does not touch that membership. -/
def eventDecision (V : Nat) (assigned : List Nat) (selfNode : String)
    (e : StatusEvent) (u : String) (v : Nat) : Option Bool :=
  if e.nodeId = selfNode then none
  else if !isUserOwnedByThisNode V assigned e.userId then none
  else if e.userId = u ∧ getUserVnode V e.userId = v then
    (if e.action = "online" then some true
     else if e.action = "offline" then some false
     else none)
  else none

/-- One fold step accumulating the latest verdict cast so far. -/
def decideStep (V : Nat) (assigned : List Nat) (selfNode : String) (u : String) (v : Nat)
    (acc : Option Bool) (e : StatusEvent) : Option Bool :=
  match eventDecision V assigned selfNode e u v with
  | some b => some b
  | none => acc

/-- The verdict of the last event of the list that casts one. -/
def lastDecision (V : Nat) (assigned : List Nat) (selfNode : String)
    (es : List StatusEvent) (u : String) (v : Nat) : Option Bool :=
  es.foldl (decideStep V assigned selfNode u v) none

/-! ## Concrete inputs used by the witness theorems -/

/-- A user cache holding an entry for user u1, with an empty local ring. -/
def routeCacheW : RouteState :=
  { userCache := fun x => if x = "u1" then some "A" else none,
    ring := fun _ => none }

/-- A token verifier accepting exactly one token. -/
def extractW : String → Option String :=
  fun t => if t = "tok-u7" then some "u7" else none

/-- A token verifier mapping the token tok-u to user u. -/
def extractDup : String → Option String :=
  fun t => if t = "tok-u" then some "u" else none

/-- A node state in which user u already holds live connection 7. -/
def dupState : NodeState :=
  { clients := fun x => if x = "u" then some 7 else none,
    onlineUsers := fun v => if v = 0 then some ({"u"} : Finset String) else none }

/-! # Theorems -/

set_option maxRecDepth 400000

/-! ## Hex-string lemmas for the hash claims -/

lemma hexVal_hexDigitChar {n : Nat} (h : n < 16) : hexVal (hexDigitChar n) = n := by
  interval_cases n <;> decide

lemma parseHex_take8_hexChars (b0 b1 b2 b3 : Nat) (rest : List Nat)
    (h0 : b0 < 256) (h1 : b1 < 256) (h2 : b2 < 256) (h3 : b3 < 256) :
    parseHex ((hexChars (b0 :: b1 :: b2 :: b3 :: rest)).take 8) =
      ((b0 * 256 + b1) * 256 + b2) * 256 + b3 := by
  have e : hexChars (b0 :: b1 :: b2 :: b3 :: rest) =
      hexDigitChar (b0 / 16) :: hexDigitChar (b0 % 16) ::
      hexDigitChar (b1 / 16) :: hexDigitChar (b1 % 16) ::
      hexDigitChar (b2 / 16) :: hexDigitChar (b2 % 16) ::
      hexDigitChar (b3 / 16) :: hexDigitChar (b3 % 16) :: hexChars rest := by
    simp [hexChars, byteToHex]
  rw [e]
  simp only [List.take_succ_cons, List.take_zero, parseHex, List.foldl]
  rw [hexVal_hexDigitChar (by omega), hexVal_hexDigitChar (by omega),
    hexVal_hexDigitChar (by omega), hexVal_hexDigitChar (by omega),
    hexVal_hexDigitChar (by omega), hexVal_hexDigitChar (by omega),
    hexVal_hexDigitChar (by omega), hexVal_hexDigitChar (by omega)]
  omega

lemma md5Digest_cons (msg : List Nat) :
    md5Digest msg =
      (md5Words msg).a % 256 :: ((md5Words msg).a >>> 8) % 256 ::
      ((md5Words msg).a >>> 16) % 256 :: ((md5Words msg).a >>> 24) % 256 ::
      (wordLEBytes (md5Words msg).b ++ wordLEBytes (md5Words msg).c ++
        wordLEBytes (md5Words msg).d) := by
  simp [md5Digest, wordLEBytes]

lemma getUserVnode_eq_ref (V : Nat) (u : String) :
    getUserVnode V u = userVnodeRef V u := by
  unfold getUserVnode userVnodeRef
  rw [md5Digest_cons]
  rw [parseHex_take8_hexChars _ _ _ _ _ (Nat.mod_lt _ (by norm_num))
    (Nat.mod_lt _ (by norm_num)) (Nat.mod_lt _ (by norm_num)) (Nat.mod_lt _ (by norm_num))]
  simp only [List.take_succ_cons, List.take_zero, List.foldl]
  congr 1
  ring

/-- C1: for every userId and every vnode count `V > 0`, `getUserVnode`
equals the reference MD5-truncation formula (first 32 bits of the MD5
digest of the UTF-8 bytes, mod `V`) and lies in `[0, V)`. Determinism
across invocations holds because `getUserVnode` is a pure function of its
arguments. -/
theorem userVnode_matches_reference (V : Nat) (userId : String) (hV : 0 < V) :
    getUserVnode V userId = userVnodeRef V userId ∧ getUserVnode V userId < V := by
  refine ⟨getUserVnode_eq_ref V userId, ?_⟩
  unfold getUserVnode
  exact Nat.mod_lt _ hV

/-- C1 witness: the theorem instantiated at userId u1 and `V = 1024`. -/
theorem userVnode_matches_reference_witness :
    getUserVnode 1024 "u1" = userVnodeRef 1024 "u1" ∧ getUserVnode 1024 "u1" < 1024 :=
  userVnode_matches_reference 1024 "u1" (by norm_num)

/-- C9 counterexample: the route computation for u1 at `V = 1024` does not
yield vnode 185 (the digest prefix `0x0cc175b9` quoted by the spec is the
MD5 of the one-character string a, not of u1, and its residue mod 1024 is
441, not 185). -/
theorem route_u1_not_185 : getUserVnode 1024 "u1" ≠ 185 := by decide

/-- C9 amended: for `V = 1024` the route computation for u1 yields vnode
221; the first 32 bits of the MD5 of u1 equal `0xe4774cdd`, and
`0xe4774cdd mod 1024 = 221`. -/
theorem route_u1_vnode_221 :
    parseHex ((hexChars (md5Digest (utf8Encode "u1"))).take 8) = 0xe4774cdd
    ∧ (0xe4774cdd : Nat) % 1024 = 221
    ∧ getUserVnode 1024 "u1" = 221 := by
  refine ⟨by decide, by norm_num, by decide⟩

/-! ## Register -/

lemma scanLoop_eq (occ : Nat → Bool) (d : Nat) (l : List Nat) :
    ∀ acc : List Nat, acc.length < d →
      scanLoop occ d acc l = acc ++ (l.filter (fun i => !occ i)).take (d - acc.length) := by
  induction l with
  | nil => intro acc h; simp [scanLoop]
  | cons i rest ih =>
    intro acc h
    by_cases hi : occ i
    · rw [show scanLoop occ d acc (i :: rest) = scanLoop occ d acc rest by
        simp [scanLoop, hi]]
      rw [ih acc h]
      simp [List.filter_cons, hi]
    · have hstep : scanLoop occ d acc (i :: rest) =
          (if d ≤ (acc ++ [i]).length then acc ++ [i]
           else scanLoop occ d (acc ++ [i]) rest) := by
        simp [scanLoop, hi]
      have hfilter : (i :: rest).filter (fun j => !occ j) =
          i :: rest.filter (fun j => !occ j) := by
        simp [List.filter_cons, hi]
      rw [hstep, hfilter]
      by_cases hd : d ≤ (acc ++ [i]).length
      · have h1 : d - acc.length = 1 := by
          simp only [List.length_append, List.length_cons, List.length_nil] at hd
          omega
        rw [if_pos hd, h1]
        simp
      · have h2 : (acc ++ [i]).length < d := by omega
        rw [if_neg hd, ih (acc ++ [i]) h2]
        obtain ⟨k, hk⟩ : ∃ k, d - acc.length = k + 1 := ⟨d - acc.length - 1, by omega⟩
        have h3 : d - (acc ++ [i]).length = k := by
          simp only [List.length_append, List.length_cons, List.length_nil]
          omega
        rw [h3, hk]
        simp

lemma scanLoop_register (V d : Nat) (owners : List (String × String)) (hd : 0 < d) :
    scanLoop (vnodeOccupied owners) d [] (List.range V) = (freeVnodes V owners).take d := by
  have h := scanLoop_eq (vnodeOccupied owners) d (List.range V) [] (by simpa using hd)
  simpa [freeVnodes] using h

/-- C2: the register handler computes `desired = max(1, floor(V * weight /
100))`, scans `0..V-1` in ascending order collecting the first desired ids
absent from the snapshot, answers 409 conflict when no id is free,
otherwise answers 201 with exactly the collected ids (all free ids when
fewer than desired are free) and writes exactly those assignments; a
missing weight behaves as weight 1. -/
theorem register_spec (V : Nat) (inst : String) (w : Nat)
    (owners : List (String × String)) (hinst : inst ≠ "") :
    (registerHandler V inst (some w) owners).1 =
      (if (freeVnodes V owners).isEmpty then RegisterResult.conflict
       else RegisterResult.created inst
         (((freeVnodes V owners).take (desiredCount V w)).map JVal.num))
    ∧ (registerHandler V inst (some w) owners).2 =
        ((freeVnodes V owners).take (desiredCount V w)).map (fun v => (v, inst))
    ∧ registerHandler V inst none owners = registerHandler V inst (some 1) owners
    ∧ ((freeVnodes V owners).isEmpty = false →
        (freeVnodes V owners).length < desiredCount V w →
        (registerHandler V inst (some w) owners).1 =
          RegisterResult.created inst ((freeVnodes V owners).map JVal.num)) := by
  have hd : 0 < desiredCount V w :=
    Nat.lt_of_lt_of_le Nat.zero_lt_one (le_max_left 1 (V * w / 100))
  have hscan : scanLoop (vnodeOccupied owners) (max 1 (V * w / 100)) [] (List.range V) =
      (freeVnodes V owners).take (desiredCount V w) :=
    scanLoop_register V (desiredCount V w) owners hd
  have hmain : ∀ res : RegisterResult × List (Nat × String),
      res = registerHandler V inst (some w) owners →
      res.1 = (if (freeVnodes V owners).isEmpty then RegisterResult.conflict
        else RegisterResult.created inst
          (((freeVnodes V owners).take (desiredCount V w)).map JVal.num))
      ∧ res.2 = ((freeVnodes V owners).take (desiredCount V w)).map (fun v => (v, inst)) := by
    intro res hres
    rw [hres]
    unfold registerHandler
    rw [if_neg hinst]
    simp only [Option.getD_some, hscan]
    by_cases hfree : (freeVnodes V owners).isEmpty
    · have hnil : freeVnodes V owners = [] := List.isEmpty_iff.mp hfree
      simp [hnil, hfree]
    · have hnil : freeVnodes V owners ≠ [] := fun h => hfree (by simp [h])
      obtain ⟨x, xs, hx⟩ := List.exists_cons_of_ne_nil hnil
      have htake : ((freeVnodes V owners).take (desiredCount V w)).length ≠ 0 := by
        rw [hx, List.length_take]
        simp only [List.length_cons]
        omega
      rw [if_neg htake, if_neg hfree]
      exact ⟨rfl, rfl⟩
  obtain ⟨h1, h2⟩ := hmain _ rfl
  refine ⟨h1, h2, rfl, ?_⟩
  intro hfree hlen
  rw [h1, if_neg (by simp [hfree]), List.take_of_length_le (Nat.le_of_lt hlen)]

/-- C2 witness: eight vnodes, weight 25, vnodes 0 and 1 already owned;
desired is 2 and the handler assigns vnodes 2 and 3. -/
theorem register_spec_witness :
    (registerHandler 8 "A" (some 25) [("0", "X"), ("1", "X")]).1 =
      RegisterResult.created "A" [JVal.num 2, JVal.num 3]
    ∧ (registerHandler 8 "A" (some 25) [("0", "X"), ("1", "X")]).2 =
        [(2, "A"), (3, "A")] := by
  have h := register_spec 8 "A" 25 [("0", "X"), ("1", "X")] (by decide)
  exact ⟨by rw [h.1]; decide, by rw [h.2.1]; decide⟩

/-! ## Unregister -/

lemma mem_removedKeys {owners : List (String × String)} {inst k : String} :
    (k ∈ (owners.filter (fun p => p.2 = inst)).map Prod.fst) ↔ (k, inst) ∈ owners := by
  simp only [List.mem_map, List.mem_filter, decide_eq_true_eq]
  constructor
  · rintro ⟨⟨a, b⟩, ⟨hmem, hb⟩, rfl⟩
    have hb2 : b = inst := by simpa using hb
    subst hb2
    exact hmem
  · intro h
    exact ⟨(k, inst), ⟨h, rfl⟩, rfl⟩

lemma hdel_filter_eq {owners : List (String × String)} {inst : String}
    (hnd : (owners.map Prod.fst).Nodup) :
    owners.filter
        (fun p => !(((owners.filter (fun q => q.2 = inst)).map Prod.fst).contains p.1)) =
      owners.filter (fun p => p.2 ≠ inst) := by
  apply List.filter_congr
  intro p hp
  have hc : ((owners.filter (fun q => q.2 = inst)).map Prod.fst).contains p.1 =
      decide (p.2 = inst) := by
    by_cases hpv : p.2 = inst
    · have hk : (p.1, inst) ∈ owners := by
        have hpp : (p.1, p.2) ∈ owners := by simpa using hp
        rwa [hpv] at hpp
      simp [hpv, List.elem_eq_mem, mem_removedKeys.mpr hk]
    · have hk : ¬ (p.1, inst) ∈ owners := by
        intro hmem
        have := List.inj_on_of_nodup_map hnd hmem hp (by rfl)
        exact hpv (by rw [← this])
      have hmem : p.1 ∉ (owners.filter (fun q => q.2 = inst)).map Prod.fst :=
        fun h => hk (mem_removedKeys.mp h)
      simp [hpv, List.elem_eq_mem, hmem]
  rw [hc]
  by_cases hpv : p.2 = inst <;> simp [hpv]

/-- C7 amended: the unregister handler answers 404 when the instance owns
no vnode; otherwise it deletes from the directory exactly the entries
owned by the instance (no surviving entry maps to it, all other entries
are unchanged) and answers 200 listing the removed vnode ids — as the
decimal-string hash-field keys of the snapshot, not as integers. -/
theorem unregister_spec (owners : List (String × String)) (inst : String)
    (hinst : inst ≠ "") (hnd : (owners.map Prod.fst).Nodup) :
    ((owners.filter (fun p => p.2 = inst)).map Prod.fst = [] →
      unregisterHandler owners inst = (.notFound, owners))
    ∧ ((owners.filter (fun p => p.2 = inst)).map Prod.fst ≠ [] →
        unregisterHandler owners inst =
          (.ok inst (((owners.filter (fun p => p.2 = inst)).map Prod.fst).map JVal.str),
           owners.filter (fun p => p.2 ≠ inst)))
    ∧ (∀ p ∈ (unregisterHandler owners inst).2, p.2 ≠ inst) := by
  have hzero : ∀ l : List String, (l.length = 0) ↔ l = [] := by
    intro l; exact List.length_eq_zero
  refine ⟨?_, ?_, ?_⟩
  · intro hempty
    unfold unregisterHandler
    rw [if_neg hinst, if_pos ((hzero _).mpr hempty)]
  · intro hne
    unfold unregisterHandler
    rw [if_neg hinst, if_neg (fun h => hne ((hzero _).mp h)), hdel_filter_eq hnd]
  · intro p hp
    unfold unregisterHandler at hp
    rw [if_neg hinst] at hp
    by_cases hrm : ((owners.filter (fun q => q.2 = inst)).map Prod.fst).length = 0
    · rw [if_pos hrm] at hp
      intro hpv
      have hk : (p.1, inst) ∈ owners := by
        have hpp : (p.1, p.2) ∈ owners := by simpa using hp
        rwa [hpv] at hpp
      have : p.1 ∈ (owners.filter (fun q => q.2 = inst)).map Prod.fst :=
        mem_removedKeys.mpr hk
      rw [(hzero _).mp hrm] at this
      simp at this
    · rw [if_neg hrm, hdel_filter_eq hnd] at hp
      have := (List.mem_filter.mp hp).2
      simpa using this

/-- C7 witness: one entry owned by A; unregistering A removes it and
responds with its key as a string. -/
theorem unregister_spec_witness :
    unregisterHandler [("0", "A"), ("1", "B")] "A" =
      (.ok "A" [JVal.str "0"], [("1", "B")]) := by
  have h := (unregister_spec [("0", "A"), ("1", "B")] "A" (by decide)
    (by decide)).2.1 (by decide)
  rw [h]
  decide

/-- C7 counterexample: the 200 response of the unregister handler lists the
removed vnode ids as JSON strings (the hash-field keys of the `hgetall`
snapshot kept by `Object.entries`), not as integers as the claim states. -/
theorem unregister_removed_ids_are_strings :
    (unregisterHandler [("0", "A")] "A").1 = .ok "A" [JVal.str "0"]
    ∧ ([JVal.str "0"].all JVal.isNum) = false := by
  decide

/-! ## Route -/

/-- C3: the route handler serves a cached user-to-instance entry as-is with
source cache and no state change; otherwise it uses `getUserVnode`, serves
a local-ring owner (writing the user cache), falls back to the directory
on a local miss (writing both the user cache and the local ring), and
answers 404 with no state change when the owner is absent from both. -/
theorem route_spec (V : Nat) (d : Nat → Option String) (st : RouteState) (u : String)
    (hu : u ≠ "") :
    (∀ inst, st.userCache u = some inst → inst ≠ "" →
      routeHandler V d st u = (.cacheHit u inst, st))
    ∧ (strTruthy (st.userCache u) = false →
        ((strTruthy (st.ring (getUserVnode V u)) = false →
          strTruthy (d (getUserVnode V u)) = false →
          routeHandler V d st u = (.notFound, st))
        ∧ (∀ inst, st.ring (getUserVnode V u) = some inst → inst ≠ "" →
            routeHandler V d st u =
              (.hashHit u (getUserVnode V u) inst,
               { st with userCache := fun x => if x = u then some inst else st.userCache x }))
        ∧ (∀ inst, strTruthy (st.ring (getUserVnode V u)) = false →
            d (getUserVnode V u) = some inst → inst ≠ "" →
            routeHandler V d st u =
              (.hashHit u (getUserVnode V u) inst,
               { userCache := fun x => if x = u then some inst else st.userCache x,
                 ring := fun v => if v = getUserVnode V u then some inst
                   else st.ring v })))) := by
  refine ⟨?_, fun hcf => ⟨?_, ?_, ?_⟩⟩
  · intro inst hc hne
    unfold routeHandler
    rw [if_neg hu, hc]
    have ht : strTruthy (some inst) = true := by simp [strTruthy, hne]
    rw [if_pos ht]
    simp
  · intro hrf hdf
    unfold routeHandler
    rw [if_neg hu, if_neg (by simp [hcf]), if_neg (by simp [hrf]), if_neg (by simp [hdf])]
  · intro inst hr hne
    unfold routeHandler
    rw [if_neg hu, if_neg (by simp [hcf]), hr]
    have ht : strTruthy (some inst) = true := by simp [strTruthy, hne]
    rw [if_pos ht]
    simp
  · intro inst hrf hd hne
    unfold routeHandler
    rw [if_neg hu, if_neg (by simp [hcf]), if_neg (by simp [hrf]), hd]
    have ht : strTruthy (some inst) = true := by simp [strTruthy, hne]
    rw [if_pos ht]
    simp

/-- C3 witness: a cache hit for user u1 is served from the cache with no
state change. -/
theorem route_spec_witness :
    routeHandler 1024 (fun _ => none) routeCacheW "u1" = (.cacheHit "u1" "A", routeCacheW) :=
  (route_spec 1024 (fun _ => none) routeCacheW "u1" (by decide)).1 "A" (by decide) (by decide)

/-! ## Presence Node connection handling -/

/-- C4: every client-input rejection of the connection handler — missing
token, invalid token, or a user whose vnode is not assigned to this node —
closes the connection with code 1008 and the matching reason, leaves the
node state untouched, and publishes nothing. -/
theorem connect_reject_spec (V : Nat) (assigned : List Nat) (selfNode : String)
    (ext : String → Option String) (st : NodeState) (ws : Nat) :
    handleConnection V assigned selfNode ext st ws none =
      (st, [.close ws 1008 "No token provided"])
    ∧ (∀ t, ext t = none →
        handleConnection V assigned selfNode ext st ws (some t) =
          (st, [.close ws 1008 "Invalid token"]))
    ∧ (∀ t u, ext t = some u → isUserOwnedByThisNode V assigned u = false →
        handleConnection V assigned selfNode ext st ws (some t) =
          (st, [.close ws 1008 "User does not belong to this node"])) := by
  refine ⟨rfl, ?_, ?_⟩
  · intro t ht
    simp [handleConnection, ht]
  · intro t u ht hown
    simp [handleConnection, ht, hown]

/-- C4 witness: a node with no assigned vnodes rejects user u7 with close
1008 and reason User does not belong to this node, publishing nothing. -/
theorem connect_reject_spec_witness :
    handleConnection 1024 [] "node-1" extractW (initialNodeState []) 3 (some "tok-u7") =
      (initialNodeState [], [.close 3 1008 "User does not belong to this node"]) :=
  (connect_reject_spec 1024 [] "node-1" extractW (initialNodeState []) 3).2.2
    "tok-u7" "u7" rfl rfl

/-- C5: evaluation of the connection handler at the failing input — user u
already holds connection 7 and a second connection 8 arrives with a valid
token. The handler overwrites the clients entry, publishes online and
sends welcome, but closes nothing: connection 7 is never closed with 1001
(or any code), contradicting the claim. -/
theorem duplicate_session_overwrites_without_close :
    dupState.clients "u" = some 7
    ∧ (handleConnection 1 [0] "n1" extractDup dupState 8 (some "tok-u")).1.clients "u" =
        some 8
    ∧ (handleConnection 1 [0] "n1" extractDup dupState 8 (some "tok-u")).2 =
        [.publish "u" "online" "n1", .send 8 "welcome"]
    ∧ ((handleConnection 1 [0] "n1" extractDup dupState 8 (some "tok-u")).2.filter
        (WsEffect.closes 7)).length = 0 := by
  refine ⟨by decide, by decide, by decide, by decide⟩

/-! ## Startup ordering -/

/-- C8 counterexample: in the startup sequence of the WebSocket node the
initial heartbeat does not precede `server.listen`; the node starts
accepting connections first and only then runs its initial heartbeat. -/
theorem initial_heartbeat_not_before_listen :
    ¬ (wsNodeStartSequence.indexOf StartStep.initialHeartbeat <
        wsNodeStartSequence.indexOf StartStep.serverListen) := by decide

/-- C8 amended: the startup sequence does perform exactly one initial
heartbeat, but only after `server.listen` has begun accepting connections
(and after the heartbeat interval timer is scheduled). -/
theorem listen_precedes_initial_heartbeat :
    StartStep.initialHeartbeat ∈ wsNodeStartSequence
    ∧ (wsNodeStartSequence.count StartStep.initialHeartbeat = 1)
    ∧ wsNodeStartSequence.indexOf StartStep.serverListen <
        wsNodeStartSequence.indexOf StartStep.initialHeartbeat := by decide

/-! ## Bus-event idempotence -/

lemma applyStatusEvent_isSome (V : Nat) (assigned : List Nat) (selfNode : String)
    (ou : Nat → Option (Finset String)) (e : StatusEvent) (v : Nat) :
    (applyStatusEvent V assigned selfNode ou e v).isSome = (ou v).isSome := by
  unfold applyStatusEvent
  by_cases h1 : e.nodeId = selfNode
  · simp [h1]
  rw [if_neg h1]
  by_cases h2 : (!isUserOwnedByThisNode V assigned e.userId) = true
  · rw [if_pos h2]
  rw [if_neg h2]
  by_cases h3 : e.action = "online"
  · rw [if_pos h3]
    by_cases hv : v = getUserVnode V e.userId <;> simp [hv]
  rw [if_neg h3]
  by_cases h4 : e.action = "offline"
  · rw [if_pos h4]
    by_cases hv : v = getUserVnode V e.userId <;> simp [hv]
  rw [if_neg h4]

lemma applyStatusEvents_isSome (V : Nat) (assigned : List Nat) (selfNode : String)
    (es : List StatusEvent) :
    ∀ (ou : Nat → Option (Finset String)) (v : Nat),
      (applyStatusEvents V assigned selfNode ou es v).isSome = (ou v).isSome := by
  induction es with
  | nil => intro ou v; rfl
  | cons e rest ih =>
    intro ou v
    unfold applyStatusEvents at ih ⊢
    simp only [List.foldl_cons]
    rw [ih, applyStatusEvent_isSome]

lemma memOU_applyStatusEvent (V : Nat) (assigned : List Nat) (selfNode : String)
    (ou : Nat → Option (Finset String)) (e : StatusEvent) (v : Nat) (u : String) :
    memOU (applyStatusEvent V assigned selfNode ou e) v u =
      (match eventDecision V assigned selfNode e u v with
       | some b => b && (ou v).isSome
       | none => memOU ou v u) := by
  unfold applyStatusEvent eventDecision
  by_cases h1 : e.nodeId = selfNode
  · simp [h1]
  rw [if_neg h1, if_neg h1]
  by_cases h2 : (!isUserOwnedByThisNode V assigned e.userId) = true
  · rw [if_pos h2, if_pos h2]
  rw [if_neg h2, if_neg h2]
  by_cases hc : e.userId = u ∧ getUserVnode V e.userId = v
  · obtain ⟨hcu, hcv⟩ := hc
    subst hcu
    subst hcv
    have hcond : e.userId = e.userId ∧ getUserVnode V e.userId = getUserVnode V e.userId :=
      ⟨rfl, rfl⟩
    rw [if_pos hcond]
    by_cases h3 : e.action = "online"
    · rw [if_pos h3, if_pos h3]
      cases hou : ou (getUserVnode V e.userId) with
      | none => simp [memOU, hou]
      | some s => simp [memOU, hou]
    rw [if_neg h3, if_neg h3]
    by_cases h4 : e.action = "offline"
    · rw [if_pos h4, if_pos h4]
      cases hou : ou (getUserVnode V e.userId) with
      | none => simp [memOU, hou]
      | some s => simp [memOU, hou, Finset.mem_erase]
    rw [if_neg h4, if_neg h4]
  · rw [if_neg hc]
    by_cases h3 : e.action = "online"
    · rw [if_pos h3]
      by_cases hv : v = getUserVnode V e.userId
      · subst hv
        have hne : e.userId ≠ u := fun h => hc ⟨h, rfl⟩
        cases hou : ou (getUserVnode V e.userId) with
        | none => simp [memOU, hou]
        | some s =>
          have hmem : (u ∈ insert e.userId s) ↔ u ∈ s := by
            rw [Finset.mem_insert]
            simp [Ne.symm hne]
          simp [memOU, hou, hmem]
      · simp [memOU, hv]
    rw [if_neg h3]
    by_cases h4 : e.action = "offline"
    · rw [if_pos h4]
      by_cases hv : v = getUserVnode V e.userId
      · subst hv
        have hne : e.userId ≠ u := fun h => hc ⟨h, rfl⟩
        cases hou : ou (getUserVnode V e.userId) with
        | none => simp [memOU, hou]
        | some s =>
          have hmem : (u ∈ s.erase e.userId) ↔ u ∈ s := by
            rw [Finset.mem_erase]
            simp [Ne.symm hne]
          simp [memOU, hou, hmem]
      · simp [memOU, hv]
    rw [if_neg h4]

lemma decideStep_foldl (V : Nat) (assigned : List Nat) (selfNode : String)
    (u : String) (v : Nat) (es : List StatusEvent) :
    ∀ acc : Option Bool,
      es.foldl (decideStep V assigned selfNode u v) acc =
        (match es.foldl (decideStep V assigned selfNode u v) none with
         | some b => some b
         | none => acc) := by
  induction es with
  | nil => intro acc; rfl
  | cons e rest ih =>
    intro acc
    simp only [List.foldl_cons]
    rw [ih (decideStep V assigned selfNode u v acc e),
      ih (decideStep V assigned selfNode u v none e)]
    cases hr : rest.foldl (decideStep V assigned selfNode u v) none with
    | some b => rfl
    | none =>
      unfold decideStep
      cases eventDecision V assigned selfNode e u v <;> rfl

lemma memOU_applyStatusEvents (V : Nat) (assigned : List Nat) (selfNode : String)
    (es : List StatusEvent) :
    ∀ (ou : Nat → Option (Finset String)) (v : Nat) (u : String),
      memOU (applyStatusEvents V assigned selfNode ou es) v u =
        (match lastDecision V assigned selfNode es u v with
         | some b => b && (ou v).isSome
         | none => memOU ou v u) := by
  induction es with
  | nil => intro ou v u; rfl
  | cons e rest ih =>
    intro ou v u
    have hL : applyStatusEvents V assigned selfNode ou (e :: rest) =
        applyStatusEvents V assigned selfNode (applyStatusEvent V assigned selfNode ou e) rest := by
      unfold applyStatusEvents
      simp only [List.foldl_cons]
    rw [hL, ih]
    have hR : lastDecision V assigned selfNode (e :: rest) u v =
        (match lastDecision V assigned selfNode rest u v with
         | some b => some b
         | none => decideStep V assigned selfNode u v none e) := by
      unfold lastDecision
      simp only [List.foldl_cons]
      exact decideStep_foldl V assigned selfNode u v rest
        (decideStep V assigned selfNode u v none e)
    rw [hR]
    cases hr : lastDecision V assigned selfNode rest u v with
    | some b =>
      simp only []
      rw [applyStatusEvent_isSome]
    | none =>
      simp only []
      rw [memOU_applyStatusEvent]
      unfold decideStep
      cases eventDecision V assigned selfNode e u v <;> rfl

/-- C6: applying bus presence events to `onlineUsers` is idempotent at the
set level — replaying the same online/offline event sequence a second
time (at-least-once delivery) yields the same `onlineUsers` sets as
applying it once. -/
theorem status_replay_idempotent (V : Nat) (assigned : List Nat) (selfNode : String)
    (ou : Nat → Option (Finset String)) (es : List StatusEvent) (v : Nat) :
    applyStatusEvents V assigned selfNode
        (applyStatusEvents V assigned selfNode ou es) es v =
      applyStatusEvents V assigned selfNode ou es v := by
  have hs : (applyStatusEvents V assigned selfNode
        (applyStatusEvents V assigned selfNode ou es) es v).isSome =
      (applyStatusEvents V assigned selfNode ou es v).isSome := by
    rw [applyStatusEvents_isSome]
  have hm : ∀ x, memOU (applyStatusEvents V assigned selfNode
        (applyStatusEvents V assigned selfNode ou es) es) v x =
      memOU (applyStatusEvents V assigned selfNode ou es) v x := by
    intro x
    rw [memOU_applyStatusEvents, memOU_applyStatusEvents]
    cases hd : lastDecision V assigned selfNode es x v with
    | some b =>
      simp only []
      rw [applyStatusEvents_isSome]
    | none => rfl
  cases h1 : applyStatusEvents V assigned selfNode ou es v with
  | none =>
    cases h2 : applyStatusEvents V assigned selfNode
        (applyStatusEvents V assigned selfNode ou es) es v with
    | none => rfl
    | some s2 =>
      rw [h1, h2] at hs
      simp at hs
  | some s1 =>
    cases h2 : applyStatusEvents V assigned selfNode
        (applyStatusEvents V assigned selfNode ou es) es v with
    | none =>
      rw [h1, h2] at hs
      simp at hs
    | some s2 =>
      congr 1
      ext x
      have hx := hm x
      unfold memOU at hx
      rw [h1, h2] at hx
      simpa using hx

/-! ## Node bookkeeping invariant -/

lemma invariant_init (V : Nat) (assigned : List Nat) :
    NodeInvariant V assigned (initialNodeState assigned) := by
  constructor
  · intro v
    show (if assigned.contains v then some (∅ : Finset String) else none).isSome
        = assigned.contains v
    cases hb : assigned.contains v
    · rfl
    · rfl
  · intro v s hs u hu
    have hs2 : (if assigned.contains v then some (∅ : Finset String) else none) = some s := hs
    cases hb : assigned.contains v
    · rw [if_neg (by rw [hb]; exact Bool.false_ne_true)] at hs2
      cases hs2
    · rw [if_pos hb] at hs2
      have hse : (∅ : Finset String) = s := Option.some.inj hs2
      subst hse
      exact absurd hu (Finset.not_mem_empty u)

lemma invariant_connect (V : Nat) (assigned : List Nat) (selfNode : String)
    (ext : String → Option String) (st : NodeState) (ws : Nat) (token : Option String)
    (h : NodeInvariant V assigned st) :
    NodeInvariant V assigned (handleConnection V assigned selfNode ext st ws token).1 := by
  cases token with
  | none => exact h
  | some t =>
    cases hext : ext t with
    | none =>
      have hred : (handleConnection V assigned selfNode ext st ws (some t)).1 = st := by
        simp [handleConnection, hext]
      rw [hred]
      exact h
    | some userId =>
      by_cases hown : (!isUserOwnedByThisNode V assigned userId) = true
      · have hred : (handleConnection V assigned selfNode ext st ws (some t)).1 = st := by
          simp [handleConnection, hext, hown]
        rw [hred]
        exact h
      · have hred : (handleConnection V assigned selfNode ext st ws (some t)).1 =
            { clients := fun u => if u = userId then some ws else st.clients u,
              onlineUsers := fun v =>
                if v = getUserVnode V userId then (st.onlineUsers v).map (insert userId)
                else st.onlineUsers v } := by
          simp [handleConnection, hext, hown]
        rw [hred]
        constructor
        · intro v
          show (if v = getUserVnode V userId then (st.onlineUsers v).map (insert userId)
            else st.onlineUsers v).isSome = assigned.contains v
          by_cases hv : v = getUserVnode V userId
          · rw [if_pos hv, Option.isSome_map']
            exact h.1 v
          · rw [if_neg hv]
            exact h.1 v
        · intro v s hs u hu
          have hs2 : (if v = getUserVnode V userId then (st.onlineUsers v).map (insert userId)
              else st.onlineUsers v) = some s := hs
          by_cases hv : v = getUserVnode V userId
          · rw [if_pos hv] at hs2
            obtain ⟨s0, hs0, hmap⟩ := Option.map_eq_some'.mp hs2
            subst hmap
            rcases Finset.mem_insert.mp hu with h5 | h5
            · subst h5
              exact hv.symm
            · exact h.2 v s0 hs0 u h5
          · rw [if_neg hv] at hs2
            exact h.2 v s hs2 u hu

lemma invariant_close (V : Nat) (assigned : List Nat) (st : NodeState) (userId : String)
    (h : NodeInvariant V assigned st) :
    NodeInvariant V assigned (handleClose V st userId) := by
  constructor
  · intro v
    show (if v = getUserVnode V userId then (st.onlineUsers v).map (fun s => s.erase userId)
      else st.onlineUsers v).isSome = assigned.contains v
    by_cases hv : v = getUserVnode V userId
    · rw [if_pos hv, Option.isSome_map']
      exact h.1 v
    · rw [if_neg hv]
      exact h.1 v
  · intro v s hs u hu
    have hs2 : (if v = getUserVnode V userId then (st.onlineUsers v).map (fun s => s.erase userId)
        else st.onlineUsers v) = some s := hs
    by_cases hv : v = getUserVnode V userId
    · rw [if_pos hv] at hs2
      obtain ⟨s0, hs0, hmap⟩ := Option.map_eq_some'.mp hs2
      subst hmap
      exact h.2 v s0 hs0 u (Finset.mem_of_mem_erase hu)
    · rw [if_neg hv] at hs2
      exact h.2 v s hs2 u hu

lemma invariant_bus (V : Nat) (assigned : List Nat) (selfNode : String)
    (st : NodeState) (e : StatusEvent) (h : NodeInvariant V assigned st) :
    NodeInvariant V assigned
      { st with onlineUsers := applyStatusEvent V assigned selfNode st.onlineUsers e } := by
  constructor
  · intro v
    show (applyStatusEvent V assigned selfNode st.onlineUsers e v).isSome = assigned.contains v
    rw [applyStatusEvent_isSome]
    exact h.1 v
  · intro v s hs u hu
    have hs2 : applyStatusEvent V assigned selfNode st.onlineUsers e v = some s := hs
    unfold applyStatusEvent at hs2
    by_cases h1 : e.nodeId = selfNode
    · rw [if_pos h1] at hs2
      exact h.2 v s hs2 u hu
    rw [if_neg h1] at hs2
    by_cases h2 : (!isUserOwnedByThisNode V assigned e.userId) = true
    · rw [if_pos h2] at hs2
      exact h.2 v s hs2 u hu
    rw [if_neg h2] at hs2
    by_cases h3 : e.action = "online"
    · rw [if_pos h3] at hs2
      have hs3 : (if v = getUserVnode V e.userId
          then (st.onlineUsers v).map (insert e.userId)
          else st.onlineUsers v) = some s := hs2
      by_cases hv : v = getUserVnode V e.userId
      · rw [if_pos hv] at hs3
        obtain ⟨s0, hs0, hmap⟩ := Option.map_eq_some'.mp hs3
        subst hmap
        rcases Finset.mem_insert.mp hu with h5 | h5
        · subst h5
          exact hv.symm
        · exact h.2 v s0 hs0 u h5
      · rw [if_neg hv] at hs3
        exact h.2 v s hs3 u hu
    rw [if_neg h3] at hs2
    by_cases h4 : e.action = "offline"
    · rw [if_pos h4] at hs2
      have hs3 : (if v = getUserVnode V e.userId
          then (st.onlineUsers v).map (fun s => s.erase e.userId)
          else st.onlineUsers v) = some s := hs2
      by_cases hv : v = getUserVnode V e.userId
      · rw [if_pos hv] at hs3
        obtain ⟨s0, hs0, hmap⟩ := Option.map_eq_some'.mp hs3
        subst hmap
        exact h.2 v s0 hs0 u (Finset.mem_of_mem_erase hu)
      · rw [if_neg hv] at hs3
        exact h.2 v s hs3 u hu
    rw [if_neg h4] at hs2
    exact h.2 v s hs2 u hu

/-- C10: in every Presence Node state reachable by connections,
disconnections, and bus-event application, the keys of `onlineUsers` are
exactly the configured assigned vnodes, and every user contained in the
set of vnode `v` hashes to `v` under `getUserVnode`. -/
theorem reachable_node_invariant (V : Nat) (assigned : List Nat) (selfNode : String)
    (st : NodeState) (h : Reachable V assigned selfNode st) :
    NodeInvariant V assigned st := by
  induction h with
  | init => exact invariant_init V assigned
  | step hr hstep ih =>
    cases hstep with
    | connect ws token ext => exact invariant_connect V assigned selfNode ext _ ws token ih
    | disconnect userId => exact invariant_close V assigned _ userId ih
    | busEvent e => exact invariant_bus V assigned selfNode _ e ih

/-- C10 witness: the invariant holds of the initial state of a node with
assigned vnodes 0 and 1 (reachable by the empty execution). -/
theorem reachable_node_invariant_witness :
    NodeInvariant 1024 [0, 1] (initialNodeState [0, 1]) :=
  reachable_node_invariant 1024 [0, 1] "n1" (initialNodeState [0, 1]) Reachable.init

end RegistrationCenter
